import Mathlib

/-!
Shallow embedding of the UNI-T UT8802E decoder and framer from libsigrok:
`src/dmm/ut8802e.c` (packet validator, flag decoder, value decoder,
measurement mapper) and `src/hardware/uni-t-ut8802e/protocol.c` (chunk
append / packet scan / buffer compaction in `get_and_handle_data`).

Bytes are modelled as `Nat` (all wire bytes are < 256; the definitions use
the same masking the C code uses, so no normalisation is needed).  The C
`float` value is modelled by `FVal`: an exact rational together with the
two infinities that the code produces via `INFINITY` on overload.  This
mirrors every operation the code performs on the value (negation,
multiplication by 1000, division by 1000, comparisons against 0 and 60);
float rounding is not modelled, the arithmetic is exact.
-/

namespace UT8802E

abbrev Byte := Nat

/-- `bcd_to_dec` from src/dmm/ut8802e.c: `(byte >> 4) * 10 + (byte & 0xf)`. -/
def bcd_to_dec (byte : Byte) : Nat :=
  (byte >>> 4) * 10 + (byte &&& 0xf)

/-- The `ut8802e_info` flag struct (zero-initialised by both callers before
`parse_flags` runs, hence all fields default to `false`). -/
structure ut8802e_info where
  is_voltage : Bool := false
  is_current : Bool := false
  is_resistance : Bool := false
  is_capacitance : Bool := false
  is_frequency : Bool := false
  is_temperature : Bool := false
  is_continuity : Bool := false
  is_diode : Bool := false
  is_power : Bool := false
  is_loop_current : Bool := false
  is_celsius : Bool := false
  is_fahrenheit : Bool := false
  is_duty_cycle : Bool := false
  is_ac : Bool := false
  is_dc : Bool := false
  is_min : Bool := false
  is_max : Bool := false
  is_rel : Bool := false
  is_hold : Bool := false
  is_ol : Bool := false
  is_sign : Bool := false
  deriving Repr, DecidableEq

/-- The `switch (buf[1])` of `parse_flags`: the function/mode byte sets one
measurement category (and AC/DC where applicable); unknown bytes hit the
`default:` case and set nothing. -/
def mode_switch (b1 : Byte) (info : ut8802e_info) : ut8802e_info :=
  match b1 with
  | 0x0c | 0x0b | 0x0a | 0x09 =>
      { info with is_voltage := true, is_ac := true }
  | 0x01 | 0x03 | 0x04 | 0x05 | 0x06 =>
      { info with is_voltage := true, is_dc := true }
  | 0x1F | 0x1D | 0x1C | 0x1B | 0x1A | 0x19 =>
      { info with is_resistance := true }
  | 0x28 | 0x27 =>
      { info with is_capacitance := true }
  | 0x0d | 0x0e | 0x11 | 0x12 | 0x16 =>
      { info with is_current := true, is_dc := true }
  | 0x10 | 0x13 | 0x14 | 0x18 =>
      { info with is_current := true, is_ac := true }
  | 0x24 =>
      { info with is_continuity := true }
  | 0x23 =>
      { info with is_diode := true }
  | 0x2b | 0x2c =>
      { info with is_frequency := true }
  | 0x22 =>
      { info with is_duty_cycle := true }
  | _ => info

/-- `parse_flags` from src/dmm/ut8802e.c: mode switch on byte 1, then the
modifier bits of byte 6 (`(buf[6] & (1 << k)) != 0` is `Nat.testBit`). -/
def parse_flags (buf : List Byte) : ut8802e_info :=
  let info := mode_switch (buf.getD 1 0) {}
  { info with
    is_min  := (buf.getD 6 0).testBit 0,
    is_max  := (buf.getD 6 0).testBit 1,
    is_rel  := (buf.getD 6 0).testBit 3,
    is_hold := (buf.getD 6 0).testBit 4,
    is_ol   := (buf.getD 6 0).testBit 6,
    is_sign := (buf.getD 6 0).testBit 7 }

/-- The `count` computed in `flags_valid`. -/
def category_count (info : ut8802e_info) : Nat :=
  (if info.is_voltage then 1 else 0) +
  (if info.is_current then 1 else 0) +
  (if info.is_resistance then 1 else 0) +
  (if info.is_capacitance then 1 else 0) +
  (if info.is_frequency then 1 else 0) +
  (if info.is_temperature then 1 else 0) +
  (if info.is_continuity then 1 else 0) +
  (if info.is_diode then 1 else 0) +
  (if info.is_power then 1 else 0) +
  (if info.is_loop_current then 1 else 0)

/-- `flags_valid` from src/dmm/ut8802e.c: rejects only `count > 1`. -/
def flags_valid (info : ut8802e_info) : Bool :=
  if category_count info > 1 then false else true

/-- `sr_ut8802e_packet_valid`: magic byte check, then `flags_valid` on the
freshly parsed flags (no checksum is verified). -/
def sr_ut8802e_packet_valid (buf : List Byte) : Bool :=
  if buf.getD 0 0 = 0xAC then flags_valid (parse_flags buf) else false

/-- The C `float` value: an exact rational, or one of the infinities the
code produces via `INFINITY` on the overload flag. -/
inductive FVal where
  | fin (q : ℚ)
  | posInf
  | negInf
  deriving Repr, DecidableEq

/-- `*floatval *= -1`: negation (flips infinities, as IEEE does). -/
def FVal.neg : FVal → FVal
  | .fin q => .fin (-q)
  | .posInf => .negInf
  | .negInf => .posInf

/-- Multiplication by a positive constant (the code only scales by 1000 and
1/1000, both positive, so infinities are preserved — as IEEE does). -/
def FVal.scale (c : ℚ) : FVal → FVal
  | .fin q => .fin (q * c)
  | .posInf => .posInf
  | .negInf => .negInf

/-- `v < q` as the C float comparison evaluates it (±∞ compare as usual). -/
def FVal.ltQ : FVal → ℚ → Bool
  | .fin x, q => decide (x < q)
  | .posInf, _ => false
  | .negInf, _ => true

/-- `v > q` as the C float comparison evaluates it. -/
def FVal.gtQ : FVal → ℚ → Bool
  | .fin x, q => decide (q < x)
  | .posInf, _ => true
  | .negInf, _ => false

/-- The two mode-specific scaling corrections at the end of `parse_value`
(src/dmm/ut8802e.c lines 55–71), keyed on the exact mode byte: the
frequency mode byte 0x2c multiplies by 1000; the capacitance mode byte 0x27
divides by 1000 and 0x28 divides by 1 (the upstream FIXME), i.e. leaves the
value unchanged. -/
def mode_scale (buf : List Byte) (info : ut8802e_info) (floatval : FVal) : FVal :=
  let floatval :=
    if info.is_frequency ∧ buf.getD 1 0 = 0x2c then floatval.scale 1000
    else floatval
  if info.is_capacitance then
    if buf.getD 1 0 = 0x27 then floatval.scale (1 / 1000)
    else if buf.getD 1 0 = 0x28 then floatval
    else floatval
  else floatval

/-- `parse_value` from src/dmm/ut8802e.c: BCD digit assembly, exponent from
the low nibble of byte 5, overload to `INFINITY`, sign negation, then the
mode-byte-keyed scaling quirks (`mode_scale`).  Returns the value and the
exponent. -/
def parse_value (buf : List Byte) (info : ut8802e_info) : FVal × Nat :=
  let intval : Nat :=
    bcd_to_dec (buf.getD 4 0) * 10000 +
    bcd_to_dec (buf.getD 3 0) * 100 +
    bcd_to_dec (buf.getD 2 0)
  let exponent : Nat := buf.getD 5 0 &&& 0xf
  let floatval : FVal := .fin ((intval : ℚ) / 10 ^ exponent)
  let floatval := if info.is_ol then .posInf else floatval
  let floatval := if info.is_sign then floatval.neg else floatval
  (mode_scale buf info floatval, exponent)

/-- The `SR_MQ_*` quantity codes that this parser can assign. -/
inductive SR_MQ where
  | VOLTAGE | CURRENT | RESISTANCE | FREQUENCY | CAPACITANCE
  | TEMPERATURE | CONTINUITY | DUTY_CYCLE | POWER
  deriving Repr, DecidableEq

/-- The `SR_UNIT_*` unit codes that this parser can assign. -/
inductive SR_UNIT where
  | VOLT | AMPERE | OHM | HERTZ | FARAD | CELSIUS | FAHRENHEIT
  | BOOLEAN | PERCENTAGE | WATT
  deriving Repr, DecidableEq

/-- The `SR_MQFLAG_*` bits this parser can OR into `mqflags`. -/
structure MQFlags where
  ac : Bool := false
  dc : Bool := false
  rms : Bool := false
  diode : Bool := false
  flag_min : Bool := false
  flag_max : Bool := false
  relative : Bool := false
  hold : Bool := false
  deriving Repr, DecidableEq

/-- `analog->meaning` as initialised by `sr_analog_init` (all zero: no
quantity, no unit, no flags). -/
structure AnalogMeaning where
  mq : Option SR_MQ := none
  unit : Option SR_UNIT := none
  mqflags : MQFlags := {}
  deriving Repr, DecidableEq

set_option maxHeartbeats 1000000 in
/-- `handle_flags` from src/dmm/ut8802e.c: assigns quantity/unit from the
category flags (in the source's textual order, later assignments winning),
remaps the continuity value, then ORs in the modifier flags. -/
def handle_flags (meaning : AnalogMeaning) (floatval : FVal)
    (info : ut8802e_info) : AnalogMeaning × FVal :=
  let meaning := if info.is_voltage then
    { meaning with mq := some .VOLTAGE, unit := some .VOLT } else meaning
  let meaning := if info.is_current then
    { meaning with mq := some .CURRENT, unit := some .AMPERE } else meaning
  let meaning := if info.is_resistance then
    { meaning with mq := some .RESISTANCE, unit := some .OHM } else meaning
  let meaning := if info.is_frequency then
    { meaning with mq := some .FREQUENCY, unit := some .HERTZ } else meaning
  let meaning := if info.is_capacitance then
    { meaning with mq := some .CAPACITANCE, unit := some .FARAD } else meaning
  let meaning := if info.is_temperature ∧ info.is_celsius then
    { meaning with mq := some .TEMPERATURE, unit := some .CELSIUS } else meaning
  let meaning := if info.is_temperature ∧ info.is_fahrenheit then
    { meaning with mq := some .TEMPERATURE, unit := some .FAHRENHEIT } else meaning
  let meaning := if info.is_continuity then
    { meaning with mq := some .CONTINUITY, unit := some .BOOLEAN } else meaning
  let floatval := if info.is_continuity then
    (if floatval.ltQ 0 || floatval.gtQ 60 then .fin 0 else .fin 1) else floatval
  let meaning := if info.is_diode then
    { meaning with mq := some .VOLTAGE, unit := some .VOLT } else meaning
  let meaning := if info.is_duty_cycle then
    { meaning with mq := some .DUTY_CYCLE, unit := some .PERCENTAGE } else meaning
  let meaning := if info.is_power then
    { meaning with mq := some .POWER, unit := some .WATT } else meaning
  let meaning := if info.is_loop_current then
    { meaning with mq := some .CURRENT, unit := some .PERCENTAGE } else meaning
  let meaning := if info.is_ac then
    { meaning with mqflags := { meaning.mqflags with ac := true } } else meaning
  let meaning := if info.is_dc then
    { meaning with mqflags := { meaning.mqflags with dc := true } } else meaning
  let meaning := if info.is_ac then
    { meaning with mqflags := { meaning.mqflags with rms := true } } else meaning
  let meaning := if info.is_diode then
    { meaning with mqflags :=
      { meaning.mqflags with diode := true, dc := true } } else meaning
  let meaning := if info.is_min then
    { meaning with mqflags := { meaning.mqflags with flag_min := true } } else meaning
  let meaning := if info.is_max then
    { meaning with mqflags := { meaning.mqflags with flag_max := true } } else meaning
  let meaning := if info.is_rel then
    { meaning with mqflags := { meaning.mqflags with relative := true } } else meaning
  let meaning := if info.is_hold then
    { meaning with mqflags := { meaning.mqflags with hold := true } } else meaning
  (meaning, floatval)

/-- One decoded sample as handed to the session: the value, the meaning
(quantity/unit/flags) and the digit count (`encoding->digits`, set to the
packet's exponent). -/
structure Measurement where
  floatval : FVal
  meaning : AnalogMeaning
  digits : Nat
  deriving Repr, DecidableEq

/-- `sr_ut8802e_parse` from src/dmm/ut8802e.c: re-validates the window, then
`parse_flags` → `parse_value` → `handle_flags`; `SR_ERR` on an invalid
window is `none`. -/
def sr_ut8802e_parse (buf : List Byte) : Option Measurement :=
  if sr_ut8802e_packet_valid buf then
    let info := parse_flags buf
    let ve := parse_value buf info
    let mv := handle_flags {} ve.1 info
    some ⟨mv.2, mv.1, ve.2⟩
  else none

/-- `decode_packet` from src/hardware/uni-t-ut8802e/protocol.c: parses the
window and emits one sample on success; a parse error is logged and the
packet ignored (no emission). -/
def decode_packet (buf : List Byte) : Option Measurement :=
  sr_ut8802e_parse buf

/-- The 8-byte candidate window at `pbuf + off` (`UT8802E_PACKET_SIZE`). -/
def window (pbuf : List Byte) (off : Nat) : List Byte :=
  (pbuf.drop off).take 8

/-- The scan loop of `get_and_handle_data`:
`while ((devc->buflen - devc->bufoffset) >= dmm->packet_size)`, validating
the window at the scan offset; a valid window is decoded and emitted and the
offset advances by the packet size (8), otherwise the offset advances by
one byte.  Returns the emitted measurements in order together with the
final scan offset. -/
def drain (pbuf : List Byte) (off : Nat) : List Measurement × Nat :=
  if h : 8 ≤ pbuf.length - off then
    if sr_ut8802e_packet_valid (window pbuf off) then
      let rest := drain pbuf (off + 8)
      ((decode_packet (window pbuf off)).toList ++ rest.1, rest.2)
    else
      drain pbuf (off + 1)
  else
    ([], off)
termination_by pbuf.length - off
decreasing_by all_goals omega

/-- Status codes of the handler (`SR_OK` / `SR_ERR`). -/
inductive SRStatus where
  | ok
  | err
  deriving Repr, DecidableEq

/-- Result of one `get_and_handle_data` call: the samples emitted during the
drain loop, the compacted protocol buffer, and the returned status. -/
structure ChunkResult where
  measurements : List Measurement
  buf : List Byte
  status : SRStatus
  deriving Repr, DecidableEq

/-- Modelled from the spec: the fixed capacity `DMM_BUFSIZE` of the protocol
buffer is defined in src/hardware/uni-t-ut8802e/protocol.h, which is not
part of the sources here.  The spec fixes no number, requiring only that the
capacity exceed the 8-byte packet size by a safety margin; 256 is the value
the sibling uni-t drivers use.  Note that `get_and_handle_data` itself never
consults this capacity. -/
def DMM_BUFSIZE : Nat := 256

/-- The framing part of `get_and_handle_data` from
src/hardware/uni-t-ut8802e/protocol.c, after a successful USB transfer
(transport and HID-init failures are the collaborator's errors and are not
modelled): an empty chunk (`buf[0] == 0`) returns `SR_OK` untouched;
otherwise the chunk's declared data bytes are appended to the protocol
buffer unconditionally (the code performs no capacity check), the drain
loop runs from offset 0, and the bytes beyond the final offset are
compacted to the front.  The chunk is given as the list of its
`num_databytes_in_chunk = buf[0]` data bytes. -/
def get_and_handle_data (pbuf : List Byte) (chunk : List Byte) : ChunkResult :=
  if chunk.length = 0 then ⟨[], pbuf, .ok⟩
  else
    let pbuf := pbuf ++ chunk
    let r := drain pbuf 0
    ⟨r.1, pbuf.drop r.2, .ok⟩

/-- Written from the spec's mode-byte table (amended at 0x1E, which the
source's switch does not list): each tabulated range of function bytes maps
to its single category and AC/DC modifier, everything else to no category.
Used only to compare against `mode_switch`. -/
def spec_mode_table (b1 : Byte) : ut8802e_info :=
  if 0x09 ≤ b1 ∧ b1 ≤ 0x0c then { is_voltage := true, is_ac := true }
  else if b1 = 0x01 ∨ (0x03 ≤ b1 ∧ b1 ≤ 0x06) then { is_voltage := true, is_dc := true }
  else if (0x19 ≤ b1 ∧ b1 ≤ 0x1D) ∨ b1 = 0x1F then { is_resistance := true }
  else if b1 = 0x27 ∨ b1 = 0x28 then { is_capacitance := true }
  else if b1 = 0x0d ∨ b1 = 0x0e ∨ b1 = 0x11 ∨ b1 = 0x12 ∨ b1 = 0x16 then
    { is_current := true, is_dc := true }
  else if b1 = 0x10 ∨ b1 = 0x13 ∨ b1 = 0x14 ∨ b1 = 0x18 then
    { is_current := true, is_ac := true }
  else if b1 = 0x24 then { is_continuity := true }
  else if b1 = 0x23 then { is_diode := true }
  else if b1 = 0x2b ∨ b1 = 0x2c then { is_frequency := true }
  else if b1 = 0x22 then { is_duty_cycle := true }
  else {}

/-- Written from the spec's words (with the interval amended to be closed
at 0): the decoded value lies in the interval [0, 60].  Infinite values lie
outside.  Used only to state the continuity remap property. -/
def FVal.within_0_60 : FVal → Prop
  | .fin q => 0 ≤ q ∧ q ≤ 60
  | .posInf => False
  | .negInf => False

instance (v : FVal) : Decidable v.within_0_60 :=
  match v with
  | .fin q => inferInstanceAs (Decidable (0 ≤ q ∧ q ≤ 60))
  | .posInf => inferInstanceAs (Decidable False)
  | .negInf => inferInstanceAs (Decidable False)

/-! ### Helper lemmas -/

lemma drain_exit (pbuf : List Byte) (off : Nat) (h : pbuf.length - off < 8) :
    drain pbuf off = ([], off) := by
  rw [drain]
  simp [Nat.not_le.mpr h]

lemma drain_valid_step (pbuf : List Byte) (off : Nat)
    (h : 8 ≤ pbuf.length - off)
    (hv : sr_ut8802e_packet_valid (window pbuf off) = true) :
    drain pbuf off =
      ((decode_packet (window pbuf off)).toList ++ (drain pbuf (off + 8)).1,
       (drain pbuf (off + 8)).2) := by
  rw [drain]
  simp [h, hv]

lemma drain_invalid_step (pbuf : List Byte) (off : Nat)
    (h : 8 ≤ pbuf.length - off)
    (hv : sr_ut8802e_packet_valid (window pbuf off) = false) :
    drain pbuf off = drain pbuf (off + 1) := by
  rw [drain]
  simp [h, hv]

/-- The drain loop only exits when fewer than 8 unconsumed bytes remain. -/
lemma drain_residual (pbuf : List Byte) (off : Nat) :
    pbuf.length - (drain pbuf off).2 < 8 := by
  by_cases h : 8 ≤ pbuf.length - off
  · by_cases hv : sr_ut8802e_packet_valid (window pbuf off) = true
    · rw [drain_valid_step pbuf off h hv]
      exact drain_residual pbuf (off + 8)
    · rw [drain_invalid_step pbuf off h (by simpa using hv)]
      exact drain_residual pbuf (off + 1)
  · rw [drain_exit pbuf off (by omega)]
    omega
termination_by pbuf.length - off
decreasing_by all_goals omega

/-- Scanning past a run of invalid windows advances one byte at a time and
emits nothing: the drain from `a` equals the drain from `b`. -/
lemma drain_skip (pbuf : List Byte) (a b : Nat) (hab : a ≤ b)
    (hb : b + 8 ≤ pbuf.length)
    (hinv : ∀ i, a ≤ i → i < b → sr_ut8802e_packet_valid (window pbuf i) = false) :
    drain pbuf a = drain pbuf b := by
  rcases Nat.eq_or_lt_of_le hab with heq | hlt
  · rw [heq]
  · rw [drain_invalid_step pbuf a (by omega) (hinv a le_rfl hlt)]
    exact drain_skip pbuf (a + 1) b hlt hb
      (fun i hi hib => hinv i (by omega) hib)
termination_by b - a
decreasing_by omega

/-- `get_and_handle_data` has no framing failure path: given a successful
transfer it always returns `SR_OK`. -/
lemma get_and_handle_data_ok (pbuf chunk : List Byte) :
    (get_and_handle_data pbuf chunk).status = SRStatus.ok := by
  unfold get_and_handle_data
  split <;> rfl

lemma parse_flags_is_ol (buf : List Byte) :
    (parse_flags buf).is_ol = (buf.getD 6 0).testBit 6 := rfl

lemma parse_flags_is_sign (buf : List Byte) :
    (parse_flags buf).is_sign = (buf.getD 6 0).testBit 7 := rfl

lemma parse_flags_is_frequency (buf : List Byte) :
    (parse_flags buf).is_frequency =
      (mode_switch (buf.getD 1 0) {}).is_frequency := rfl

lemma parse_flags_is_capacitance (buf : List Byte) :
    (parse_flags buf).is_capacitance =
      (mode_switch (buf.getD 1 0) {}).is_capacitance := rfl

/-- `flags_valid` reads only the category fields, which `parse_flags` takes
unchanged from the mode switch on byte 1. -/
lemma flags_valid_parse_flags (buf : List Byte) :
    flags_valid (parse_flags buf) = flags_valid (mode_switch (buf.getD 1 0) {}) := rfl

lemma FVal.scale_neg (c : ℚ) (v : FVal) :
    FVal.scale c (FVal.neg v) = FVal.neg (FVal.scale c v) := by
  cases v <;> simp [FVal.scale, FVal.neg]

/-- The scaling corrections commute with negation (they multiply by a
positive constant or do nothing). -/
lemma mode_scale_neg (buf : List Byte) (info : ut8802e_info) (v : FVal) :
    mode_scale buf info (FVal.neg v) = FVal.neg (mode_scale buf info v) := by
  unfold mode_scale
  repeat' split
  all_goals simp [FVal.scale_neg]

/-- The scaling corrections preserve both infinities. -/
lemma mode_scale_posInf (buf : List Byte) (info : ut8802e_info) :
    mode_scale buf info FVal.posInf = FVal.posInf := by
  unfold mode_scale
  repeat' split
  all_goals simp [FVal.scale]

lemma mode_scale_negInf (buf : List Byte) (info : ut8802e_info) :
    mode_scale buf info FVal.negInf = FVal.negInf := by
  unfold mode_scale
  repeat' split
  all_goals simp [FVal.scale]

/-- A window that passes the validator parses to exactly one measurement. -/
lemma parse_of_valid (buf : List Byte)
    (h : sr_ut8802e_packet_valid buf = true) :
    (sr_ut8802e_parse buf).toList.length = 1 := by
  simp [sr_ut8802e_parse, h]

/-! ### Claim theorems -/

/-- C1 (counterexample): the claim says a window whose mode byte maps to
zero measurement categories is rejected; but the window
`AC 00 00 00 00 00 00 00` has mode byte 0x00, which maps to zero
categories, and `sr_ut8802e_packet_valid` accepts it: `flags_valid` only
rejects a category count greater than one. -/
theorem packet_valid_accepts_zero_categories :
    sr_ut8802e_packet_valid [0xAC, 0x00, 0, 0, 0, 0, 0, 0] = true ∧
    category_count (parse_flags [0xAC, 0x00, 0, 0, 0, 0, 0, 0]) = 0 := by
  decide

/-- C1 (amended): `sr_ut8802e_packet_valid` returns true for an 8-byte
window if and only if byte 0 equals the magic marker 0xAC and the decoded
flags contain at most one measurement-category flag; windows whose mode
byte maps to zero categories pass. -/
theorem packet_valid_iff_magic_and_count_le_one (buf : List Byte) :
    sr_ut8802e_packet_valid buf =
      (decide (buf.getD 0 0 = 0xAC) &&
       decide (category_count (parse_flags buf) ≤ 1)) := by
  unfold sr_ut8802e_packet_valid flags_valid
  by_cases h0 : buf.getD 0 0 = 0xAC
  · rw [if_pos h0, decide_eq_true h0, Bool.true_and]
    by_cases h1 : category_count (parse_flags buf) > 1
    · rw [if_pos h1,
        decide_eq_false (show ¬ category_count (parse_flags buf) ≤ 1 by omega)]
    · rw [if_neg h1,
        decide_eq_true (show category_count (parse_flags buf) ≤ 1 by omega)]
  · rw [if_neg h0, decide_eq_false h0, Bool.false_and]

/-- C9: the validator's verdict is a function of bytes 0 and 1 of the
window only — two windows agreeing on those two bytes get the same
verdict, whatever their digit, exponent, flag and checksum bytes. -/
theorem packet_valid_depends_on_first_two_bytes (w1 w2 : List Byte)
    (h0 : w1.getD 0 0 = w2.getD 0 0) (h1 : w1.getD 1 0 = w2.getD 1 0) :
    sr_ut8802e_packet_valid w1 = sr_ut8802e_packet_valid w2 := by
  unfold sr_ut8802e_packet_valid
  rw [flags_valid_parse_flags, flags_valid_parse_flags, h0, h1]

/-- Witness for C9: two windows agreeing on bytes 0 and 1 but differing in
every other byte get the same verdict. -/
theorem packet_valid_depends_on_first_two_bytes_witness :
    sr_ut8802e_packet_valid [0xAC, 0x03, 0, 0, 0, 0, 0, 0] =
      sr_ut8802e_packet_valid [0xAC, 0x03, 0x99, 0x99, 0x99, 0xFF, 0xFF, 0xFF] :=
  packet_valid_depends_on_first_two_bytes _ _ (by decide) (by decide)

/-- C7 (counterexample): the claim says every mode byte in 0x19–0x1F
(including 0x1E) sets the resistance category, but the switch in
`parse_flags` does not list 0x1E: the decoder leaves every category bit
false for it. -/
theorem mode_0x1E_sets_no_category :
    ((0x19 ≤ 0x1E ∧ 0x1E ≤ 0x1F) ∧
     (parse_flags [0xAC, 0x1E, 0, 0, 0, 0, 0, 0]).is_resistance = false) ∧
    category_count (parse_flags [0xAC, 0x1E, 0, 0, 0, 0, 0, 0]) = 0 := by
  decide

set_option maxRecDepth 100000 in
/-- C7 (amended): the mode switch maps every byte of every listed table
range — with 0x1E removed from the resistance range, since the source does
not list it — to exactly the tabulated single category and AC/DC modifier,
and every mode byte outside the table leaves all category bits false
(`spec_mode_table` is the spec's table, amended at 0x1E); moreover
`parse_flags` takes all category and AC/DC bits unchanged from the mode
switch on byte 1 of the window, whatever the other bytes are. -/
theorem parse_flags_matches_spec_table :
    (∀ b1, b1 < 256 → mode_switch b1 {} = spec_mode_table b1) ∧
    (∀ buf : List Byte,
      (parse_flags buf).is_voltage = (mode_switch (buf.getD 1 0) {}).is_voltage ∧
      (parse_flags buf).is_current = (mode_switch (buf.getD 1 0) {}).is_current ∧
      (parse_flags buf).is_resistance = (mode_switch (buf.getD 1 0) {}).is_resistance ∧
      (parse_flags buf).is_capacitance = (mode_switch (buf.getD 1 0) {}).is_capacitance ∧
      (parse_flags buf).is_frequency = (mode_switch (buf.getD 1 0) {}).is_frequency ∧
      (parse_flags buf).is_temperature = (mode_switch (buf.getD 1 0) {}).is_temperature ∧
      (parse_flags buf).is_continuity = (mode_switch (buf.getD 1 0) {}).is_continuity ∧
      (parse_flags buf).is_diode = (mode_switch (buf.getD 1 0) {}).is_diode ∧
      (parse_flags buf).is_power = (mode_switch (buf.getD 1 0) {}).is_power ∧
      (parse_flags buf).is_loop_current = (mode_switch (buf.getD 1 0) {}).is_loop_current ∧
      (parse_flags buf).is_duty_cycle = (mode_switch (buf.getD 1 0) {}).is_duty_cycle ∧
      (parse_flags buf).is_ac = (mode_switch (buf.getD 1 0) {}).is_ac ∧
      (parse_flags buf).is_dc = (mode_switch (buf.getD 1 0) {}).is_dc) := by
  constructor
  · decide
  · intro buf
    exact ⟨rfl, rfl, rfl, rfl, rfl, rfl, rfl, rfl, rfl, rfl, rfl, rfl, rfl⟩

/-- Witness for C7 (amended): the resistance byte 0x1A maps as tabulated. -/
theorem parse_flags_matches_spec_table_witness :
    (0x1A : Byte) < 256 ∧ mode_switch 0x1A {} = spec_mode_table 0x1A :=
  ⟨by decide, parse_flags_matches_spec_table.1 0x1A (by decide)⟩

/-- C4: with the overload/sign bits clear and a mode byte that triggers no
scaling quirk (so that the later pipeline stages are the identity), the
decoded value is exactly
`(bcd(byte4)*10000 + bcd(byte3)*100 + bcd(byte2)) / 10^(low nibble of byte 5)`
and the returned digit count is that raw exponent; and the BCD decoder
satisfies `bcd(b) = 10*(b>>4) + (b&0xF)` on every byte. -/
theorem parse_value_digit_assembly (buf : List Byte)
    (hol : (buf.getD 6 0).testBit 6 = false)
    (hsign : (buf.getD 6 0).testBit 7 = false)
    (hfreq : (parse_flags buf).is_frequency = false)
    (hcap : (parse_flags buf).is_capacitance = false) :
    parse_value buf (parse_flags buf) =
      (FVal.fin (((bcd_to_dec (buf.getD 4 0) * 10000 +
                   bcd_to_dec (buf.getD 3 0) * 100 +
                   bcd_to_dec (buf.getD 2 0) : Nat) : ℚ) /
                 10 ^ (buf.getD 5 0 &&& 0xf)),
       buf.getD 5 0 &&& 0xf) ∧
    (∀ b : Byte, bcd_to_dec b = 10 * (b >>> 4) + (b &&& 0xf)) := by
  constructor
  · have h1 : (parse_flags buf).is_ol = false := by
      rw [parse_flags_is_ol]; exact hol
    have h2 : (parse_flags buf).is_sign = false := by
      rw [parse_flags_is_sign]; exact hsign
    simp [parse_value, mode_scale, h1, h2, hfreq, hcap]
  · intro b
    unfold bcd_to_dec
    ring

/-- Witness for C4: the spec's DC-2V scenario window `AC 03 34 12 00 02 00 00`
decodes to 1234 / 10^2 = 12.34 with digit count 2. -/
theorem parse_value_digit_assembly_witness :
    (([0xAC, 0x03, 0x34, 0x12, 0x00, 0x02, 0x00, 0x00] : List Byte).getD 6 0).testBit 6 = false ∧
    (([0xAC, 0x03, 0x34, 0x12, 0x00, 0x02, 0x00, 0x00] : List Byte).getD 6 0).testBit 7 = false ∧
    parse_value [0xAC, 0x03, 0x34, 0x12, 0x00, 0x02, 0x00, 0x00]
        (parse_flags [0xAC, 0x03, 0x34, 0x12, 0x00, 0x02, 0x00, 0x00]) =
      (FVal.fin ((1234 : ℚ) / 10 ^ 2), 2) :=
  ⟨by decide, by decide, by
    have h := (parse_value_digit_assembly [0xAC, 0x03, 0x34, 0x12, 0x00, 0x02, 0x00, 0x00]
      (by decide) (by decide) (by decide) (by decide)).1
    rw [h]
    simp only [List.getD_cons_zero, List.getD_cons_succ]
    norm_num [show bcd_to_dec 0x34 = 34 from by decide,
      show bcd_to_dec 0x12 = 12 from by decide,
      show bcd_to_dec 0x00 = 0 from by decide,
      show (0x02 : Nat) &&& 0xf = 2 from by decide]⟩

/-- C5: mode-specific scaling is keyed on the exact mode byte (overload and
sign clear so the value stays finite): frequency mode byte 0x2c multiplies
the assembled value by 1000 while 0x2b leaves it alone; capacitance mode
byte 0x27 divides it by 1000 while 0x28 leaves it unchanged; and the spec's
scenario — mode byte 0x2c, raw value 500, exponent 1 — yields 50000. -/
theorem parse_value_mode_specific_scaling (buf : List Byte)
    (hol : (buf.getD 6 0).testBit 6 = false)
    (hsign : (buf.getD 6 0).testBit 7 = false) :
    (buf.getD 1 0 = 0x2c →
      (parse_value buf (parse_flags buf)).1 =
        FVal.fin (((bcd_to_dec (buf.getD 4 0) * 10000 +
                    bcd_to_dec (buf.getD 3 0) * 100 +
                    bcd_to_dec (buf.getD 2 0) : Nat) : ℚ) /
                  10 ^ (buf.getD 5 0 &&& 0xf) * 1000)) ∧
    (buf.getD 1 0 = 0x2b →
      (parse_value buf (parse_flags buf)).1 =
        FVal.fin (((bcd_to_dec (buf.getD 4 0) * 10000 +
                    bcd_to_dec (buf.getD 3 0) * 100 +
                    bcd_to_dec (buf.getD 2 0) : Nat) : ℚ) /
                  10 ^ (buf.getD 5 0 &&& 0xf))) ∧
    (buf.getD 1 0 = 0x27 →
      (parse_value buf (parse_flags buf)).1 =
        FVal.fin (((bcd_to_dec (buf.getD 4 0) * 10000 +
                    bcd_to_dec (buf.getD 3 0) * 100 +
                    bcd_to_dec (buf.getD 2 0) : Nat) : ℚ) /
                  10 ^ (buf.getD 5 0 &&& 0xf) / 1000)) ∧
    (buf.getD 1 0 = 0x28 →
      (parse_value buf (parse_flags buf)).1 =
        FVal.fin (((bcd_to_dec (buf.getD 4 0) * 10000 +
                    bcd_to_dec (buf.getD 3 0) * 100 +
                    bcd_to_dec (buf.getD 2 0) : Nat) : ℚ) /
                  10 ^ (buf.getD 5 0 &&& 0xf))) ∧
    (parse_value [0xAC, 0x2c, 0x00, 0x05, 0x00, 0x01, 0x00, 0x00]
        (parse_flags [0xAC, 0x2c, 0x00, 0x05, 0x00, 0x01, 0x00, 0x00])).1 =
      FVal.fin 50000 := by
  have h1 : (parse_flags buf).is_ol = false := by
    rw [parse_flags_is_ol]; exact hol
  have h2 : (parse_flags buf).is_sign = false := by
    rw [parse_flags_is_sign]; exact hsign
  have hex : (parse_value [0xAC, 0x2c, 0x00, 0x05, 0x00, 0x01, 0x00, 0x00]
      (parse_flags [0xAC, 0x2c, 0x00, 0x05, 0x00, 0x01, 0x00, 0x00])).1 =
      FVal.fin 50000 := by
    have e1 : (parse_flags [0xAC, 0x2c, 0x00, 0x05, 0x00, 0x01, 0x00, 0x00]).is_ol
        = false := by decide
    have e2 : (parse_flags [0xAC, 0x2c, 0x00, 0x05, 0x00, 0x01, 0x00, 0x00]).is_sign
        = false := by decide
    have ef : (parse_flags [0xAC, 0x2c, 0x00, 0x05, 0x00, 0x01, 0x00, 0x00]).is_frequency
        = true := by decide
    have ec : (parse_flags [0xAC, 0x2c, 0x00, 0x05, 0x00, 0x01, 0x00, 0x00]).is_capacitance
        = false := by decide
    simp only [parse_value, mode_scale, e1, e2, ef, ec]
    norm_num [FVal.scale, show bcd_to_dec 0x05 = 5 from by decide,
      show bcd_to_dec 0x00 = 0 from by decide,
      show (0x01 : Nat) &&& 0xf = 1 from by decide]
  refine ⟨?_, ?_, ?_, ?_, hex⟩ <;> intro h
  · have hf : (parse_flags buf).is_frequency = true := by
      rw [parse_flags_is_frequency, h]; decide
    have hc : (parse_flags buf).is_capacitance = false := by
      rw [parse_flags_is_capacitance, h]; decide
    simp only [parse_value, mode_scale, h1, h2, hf, hc, h]
    norm_num [FVal.scale]
  · have hf : (parse_flags buf).is_frequency = true := by
      rw [parse_flags_is_frequency, h]; decide
    have hc : (parse_flags buf).is_capacitance = false := by
      rw [parse_flags_is_capacitance, h]; decide
    simp only [parse_value, mode_scale, h1, h2, hf, hc, h]
    norm_num [FVal.scale]
  · have hf : (parse_flags buf).is_frequency = false := by
      rw [parse_flags_is_frequency, h]; decide
    have hc : (parse_flags buf).is_capacitance = true := by
      rw [parse_flags_is_capacitance, h]; decide
    simp only [parse_value, mode_scale, h1, h2, hf, hc, h]
    norm_num [FVal.scale, mul_one_div]
  · have hf : (parse_flags buf).is_frequency = false := by
      rw [parse_flags_is_frequency, h]; decide
    have hc : (parse_flags buf).is_capacitance = true := by
      rw [parse_flags_is_capacitance, h]; decide
    simp only [parse_value, mode_scale, h1, h2, hf, hc, h]
    norm_num [FVal.scale]

/-- Witness for C5: the spec's frequency scenario window
`AC 2C 00 05 00 01 00 00` (raw value 500, exponent 1) decodes to 50000. -/
theorem parse_value_mode_specific_scaling_witness :
    (([0xAC, 0x2c, 0x00, 0x05, 0x00, 0x01, 0x00, 0x00] : List Byte).getD 6 0).testBit 6 = false ∧
    (([0xAC, 0x2c, 0x00, 0x05, 0x00, 0x01, 0x00, 0x00] : List Byte).getD 6 0).testBit 7 = false ∧
    (parse_value [0xAC, 0x2c, 0x00, 0x05, 0x00, 0x01, 0x00, 0x00]
        (parse_flags [0xAC, 0x2c, 0x00, 0x05, 0x00, 0x01, 0x00, 0x00])).1 =
      FVal.fin 50000 :=
  ⟨by decide, by decide,
    (parse_value_mode_specific_scaling [0xAC, 0x2c, 0x00, 0x05, 0x00, 0x01, 0x00, 0x00]
      (by decide) (by decide)).2.2.2.2⟩

/-- C8: for every 8-byte window, the overload bit (byte 6, bit 6) forces the
decoded value to +∞; together with the sign bit (byte 6, bit 7) it decodes
to −∞; and the sign bit alone negates the value the same window would
decode to with the sign bit cleared. -/
theorem parse_value_overload_and_sign (b0 b1 b2 b3 b4 b5 b6 b7 : Byte) :
    (b6.testBit 6 = true → b6.testBit 7 = false →
      (parse_value [b0, b1, b2, b3, b4, b5, b6, b7]
         (parse_flags [b0, b1, b2, b3, b4, b5, b6, b7])).1 = FVal.posInf) ∧
    (b6.testBit 6 = true → b6.testBit 7 = true →
      (parse_value [b0, b1, b2, b3, b4, b5, b6, b7]
         (parse_flags [b0, b1, b2, b3, b4, b5, b6, b7])).1 = FVal.negInf) ∧
    (b6.testBit 6 = false → b6.testBit 7 = true →
      (parse_value [b0, b1, b2, b3, b4, b5, b6, b7]
         (parse_flags [b0, b1, b2, b3, b4, b5, b6, b7])).1 =
        FVal.neg
          ((parse_value [b0, b1, b2, b3, b4, b5, b6 &&& 0x7f, b7]
             (parse_flags [b0, b1, b2, b3, b4, b5, b6 &&& 0x7f, b7])).1)) := by
  refine ⟨?_, ?_, ?_⟩ <;> intro h6 h7
  · have h1 : (parse_flags [b0, b1, b2, b3, b4, b5, b6, b7]).is_ol = true := h6
    have h2 : (parse_flags [b0, b1, b2, b3, b4, b5, b6, b7]).is_sign = false := h7
    simp [parse_value, h1, h2, mode_scale_posInf]
  · have h1 : (parse_flags [b0, b1, b2, b3, b4, b5, b6, b7]).is_ol = true := h6
    have h2 : (parse_flags [b0, b1, b2, b3, b4, b5, b6, b7]).is_sign = true := h7
    simp [parse_value, h1, h2, FVal.neg, mode_scale_negInf]
  · have e6 : (b6 &&& 0x7f).testBit 6 = false := by
      rw [Nat.testBit_land, h6, Bool.false_and]
    have e7 : (b6 &&& 0x7f).testBit 7 = false := by
      have h127 : Nat.testBit 0x7f 7 = false := by decide
      rw [Nat.testBit_land, h127, Bool.and_false]
    have h1 : (parse_flags [b0, b1, b2, b3, b4, b5, b6, b7]).is_ol = false := h6
    have h2 : (parse_flags [b0, b1, b2, b3, b4, b5, b6, b7]).is_sign = true := h7
    have g1 : (parse_flags [b0, b1, b2, b3, b4, b5, b6 &&& 0x7f, b7]).is_ol = false := e6
    have g2 : (parse_flags [b0, b1, b2, b3, b4, b5, b6 &&& 0x7f, b7]).is_sign = false := e7
    simp only [parse_value, h1, h2, g1, g2, if_true, if_false, Bool.false_eq_true,
      ite_true, ite_false]
    rw [mode_scale_neg]
    congr 1

/-- Witness for C8: a window with both the overload and sign bits set
(flag byte 0xC0) decodes to −∞. -/
theorem parse_value_overload_and_sign_witness :
    (0xC0 : Byte).testBit 6 = true ∧ (0xC0 : Byte).testBit 7 = true ∧
    (parse_value [0xAC, 0x03, 0, 0, 0, 0, 0xC0, 0]
       (parse_flags [0xAC, 0x03, 0, 0, 0, 0, 0xC0, 0])).1 = FVal.negInf :=
  ⟨by decide, by decide,
    (parse_value_overload_and_sign 0xAC 0x03 0 0 0 0 0xC0 0).2.1 (by decide) (by decide)⟩

/-- C6 (counterexample): the claim maps a continuity reading of exactly 0 to
0.0 (outside the claimed half-open interval (0, 60]); the code's test
`(*floatval < 0.0 || *floatval > 60.0) ? 0.0 : 1.0` maps 0 to 1.0. -/
theorem continuity_zero_remapped_to_one :
    (handle_flags {} (FVal.fin 0) (parse_flags [0xAC, 0x24, 0, 0, 0, 0, 0, 0])).2 =
      FVal.fin 1 ∧
    (handle_flags {} (FVal.fin 0) (parse_flags [0xAC, 0x24, 0, 0, 0, 0, 0, 0])).1.mq =
      some SR_MQ.CONTINUITY ∧
    ¬ (0 : ℚ) < 0 := by
  refine ⟨by decide, by decide, by norm_num⟩

/-- C6 (amended): for every continuity-category packet (mode byte 0x24) the
mapper sets quantity continuity with boolean unit, and remaps the decoded
value to 1.0 if and only if it lies in the closed interval [0, 60] (the
code accepts 0 as continuity), and to 0.0 otherwise (infinities included). -/
theorem continuity_remap (buf : List Byte) (v : FVal)
    (h : buf.getD 1 0 = 0x24) :
    (handle_flags {} v (parse_flags buf)).1.mq = some SR_MQ.CONTINUITY ∧
    (handle_flags {} v (parse_flags buf)).1.unit = some SR_UNIT.BOOLEAN ∧
    (handle_flags {} v (parse_flags buf)).2 =
      (if v.within_0_60 then FVal.fin 1 else FVal.fin 0) := by
  have hv : (parse_flags buf).is_voltage = false := by
    rw [show (parse_flags buf).is_voltage = (mode_switch (buf.getD 1 0) {}).is_voltage
      from rfl, h]
    decide
  have hcu : (parse_flags buf).is_current = false := by
    rw [show (parse_flags buf).is_current = (mode_switch (buf.getD 1 0) {}).is_current
      from rfl, h]
    decide
  have hr : (parse_flags buf).is_resistance = false := by
    rw [show (parse_flags buf).is_resistance = (mode_switch (buf.getD 1 0) {}).is_resistance
      from rfl, h]
    decide
  have hf : (parse_flags buf).is_frequency = false := by
    rw [parse_flags_is_frequency, h]
    decide
  have hca : (parse_flags buf).is_capacitance = false := by
    rw [parse_flags_is_capacitance, h]
    decide
  have hte : (parse_flags buf).is_temperature = false := by
    rw [show (parse_flags buf).is_temperature = (mode_switch (buf.getD 1 0) {}).is_temperature
      from rfl, h]
    decide
  have hco : (parse_flags buf).is_continuity = true := by
    rw [show (parse_flags buf).is_continuity = (mode_switch (buf.getD 1 0) {}).is_continuity
      from rfl, h]
    decide
  have hd : (parse_flags buf).is_diode = false := by
    rw [show (parse_flags buf).is_diode = (mode_switch (buf.getD 1 0) {}).is_diode
      from rfl, h]
    decide
  have hdu : (parse_flags buf).is_duty_cycle = false := by
    rw [show (parse_flags buf).is_duty_cycle = (mode_switch (buf.getD 1 0) {}).is_duty_cycle
      from rfl, h]
    decide
  have hpo : (parse_flags buf).is_power = false := by
    rw [show (parse_flags buf).is_power = (mode_switch (buf.getD 1 0) {}).is_power
      from rfl, h]
    decide
  have hlo : (parse_flags buf).is_loop_current = false := by
    rw [show (parse_flags buf).is_loop_current = (mode_switch (buf.getD 1 0) {}).is_loop_current
      from rfl, h]
    decide
  have hremap : (if v.ltQ 0 = true ∨ v.gtQ 60 = true then FVal.fin 0 else FVal.fin 1) =
      (if v.within_0_60 then FVal.fin 1 else FVal.fin 0) := by
    cases v with
    | fin q =>
      by_cases h1 : q < 0
      · simp [FVal.ltQ, FVal.gtQ, FVal.within_0_60, h1, not_le.mpr h1]
      · by_cases h2 : 60 < q
        · simp [FVal.ltQ, FVal.gtQ, FVal.within_0_60, h1, h2, not_le.mpr h2]
        · simp [FVal.ltQ, FVal.gtQ, FVal.within_0_60, h1, h2,
            not_lt.mp h1, not_lt.mp h2]
    | posInf => simp [FVal.ltQ, FVal.gtQ, FVal.within_0_60]
    | negInf => simp [FVal.ltQ, FVal.gtQ, FVal.within_0_60]
  refine ⟨?_, ?_, ?_⟩ <;>
    simp [handle_flags, hv, hcu, hr, hf, hca, hte, hco, hd, hdu, hpo, hlo,
      apply_ite AnalogMeaning.mq, apply_ite AnalogMeaning.unit, hremap]

/-- Witness for C6 (amended): a continuity packet with decoded value 75
(outside [0, 60]) is remapped to 0.0. -/
theorem continuity_remap_witness :
    ([0xAC, 0x24, 0, 0, 0, 0, 0, 0] : List Byte).getD 1 0 = 0x24 ∧
    (handle_flags {} (FVal.fin 75) (parse_flags [0xAC, 0x24, 0, 0, 0, 0, 0, 0])).2 =
      FVal.fin 0 :=
  ⟨by decide, by
    have h := (continuity_remap [0xAC, 0x24, 0, 0, 0, 0, 0, 0] (FVal.fin 75)
      (by decide)).2.2
    rw [h]
    norm_num [FVal.within_0_60]⟩

/-- C2 (amended): the chunk handler has no framing failure path at all: it
performs no capacity check against `DMM_BUFSIZE` and returns `SR_OK` for
every protocol-buffer state and every chunk — in particular every chunk
that fits succeeds, and an oversized append is not detected either. -/
theorem get_and_handle_data_never_fails (pbuf chunk : List Byte) :
    (get_and_handle_data pbuf chunk).status = SRStatus.ok :=
  get_and_handle_data_ok pbuf chunk

/-- C2 (counterexample): a 7-byte chunk arriving on a 250-byte buffer makes
the logical length 257 exceed the capacity `DMM_BUFSIZE = 256`, yet the
handler still returns `SR_OK` instead of the hard error the claim
requires. -/
theorem append_overflow_not_detected :
    DMM_BUFSIZE <
      (List.replicate 250 (0 : Byte)).length + (List.replicate 7 (0 : Byte)).length ∧
    (get_and_handle_data (List.replicate 250 (0 : Byte))
       (List.replicate 7 (0 : Byte))).status = SRStatus.ok :=
  ⟨by rw [List.length_replicate, List.length_replicate]; norm_num [DMM_BUFSIZE],
    get_and_handle_data_ok _ _⟩

/-- C10: if the protocol buffer holds fewer than 8 bytes on entry and the
chunk declares at most 7 data bytes, then after the drain loop and
compaction the buffer again holds fewer than 8 bytes: the loop only exits
when fewer than 8 unconsumed bytes remain and compaction keeps exactly
those bytes. -/
theorem residual_buffer_invariant (pbuf chunk : List Byte)
    (hbuf : pbuf.length < 8) (hchunk : chunk.length ≤ 7) :
    (get_and_handle_data pbuf chunk).buf.length < 8 := by
  unfold get_and_handle_data
  split
  · exact hbuf
  · have h := drain_residual (pbuf ++ chunk) 0
    show ((pbuf ++ chunk).drop (drain (pbuf ++ chunk) 0).2).length < 8
    rw [List.length_drop]
    omega

/-- Witness for C10: a 5-byte buffer plus a 2-byte chunk leaves a buffer of
fewer than 8 bytes. -/
theorem residual_buffer_invariant_witness :
    ([1, 2, 3, 4, 5] : List Byte).length < 8 ∧
    ([6, 7] : List Byte).length ≤ 7 ∧
    (get_and_handle_data [1, 2, 3, 4, 5] [6, 7]).buf.length < 8 :=
  ⟨by decide, by decide,
    residual_buffer_invariant [1, 2, 3, 4, 5] [6, 7] (by decide) (by decide)⟩

/-- C3: a buffer of `N` garbage bytes in which no window validates, then
one well-formed 8-byte packet, then `T < 8` trailing bytes: the drain loop
emits exactly the one measurement parsed from the packet, finishes at
offset `N + 8` (1 byte per garbage byte, 8 over the packet), and after
compaction the residual buffer length is `T`. -/
theorem resync_single_packet (g p t : List Byte)
    (hp8 : p.length = 8)
    (hpv : sr_ut8802e_packet_valid p = true)
    (ht : t.length < 8)
    (hg : ∀ i, i < g.length →
      sr_ut8802e_packet_valid (window (g ++ p ++ t) i) = false) :
    drain (g ++ p ++ t) 0 = ((sr_ut8802e_parse p).toList, g.length + 8) ∧
    (sr_ut8802e_parse p).toList.length = 1 ∧
    ((g ++ p ++ t).drop (g.length + 8)).length = t.length := by
  have hlen : (g ++ p ++ t).length = g.length + 8 + t.length := by
    simp only [List.length_append, hp8]
    try omega
  have hwin : window (g ++ p ++ t) g.length = p := by
    unfold window
    rw [List.append_assoc, List.drop_left, ← hp8, List.take_left]
  have hskip : drain (g ++ p ++ t) 0 = drain (g ++ p ++ t) g.length :=
    drain_skip _ 0 g.length (Nat.zero_le _) (by omega)
      (fun i _ hib => hg i hib)
  have hstep : drain (g ++ p ++ t) g.length =
      ((decode_packet p).toList ++ (drain (g ++ p ++ t) (g.length + 8)).1,
       (drain (g ++ p ++ t) (g.length + 8)).2) := by
    rw [drain_valid_step _ _ (by omega) (by rw [hwin]; exact hpv), hwin]
  have hexit : drain (g ++ p ++ t) (g.length + 8) = ([], g.length + 8) :=
    drain_exit _ _ (by omega)
  refine ⟨?_, parse_of_valid p hpv, ?_⟩
  · rw [hskip, hstep, hexit]
    simp [decode_packet]
  · rw [List.length_drop]
    omega

/-- Witness for C3: three garbage bytes, one valid DC-voltage packet, two
trailing bytes. -/
theorem resync_single_packet_witness :
    (∀ i, i < ([1, 2, 3] : List Byte).length →
      sr_ut8802e_packet_valid
        (window ([1, 2, 3] ++ [0xAC, 0x03, 0x34, 0x12, 0x00, 0x02, 0x00, 0x00] ++ [5, 6])
          i) = false) ∧
    drain ([1, 2, 3] ++ [0xAC, 0x03, 0x34, 0x12, 0x00, 0x02, 0x00, 0x00] ++ [5, 6]) 0 =
      ((sr_ut8802e_parse [0xAC, 0x03, 0x34, 0x12, 0x00, 0x02, 0x00, 0x00]).toList,
       ([1, 2, 3] : List Byte).length + 8) :=
  ⟨by decide,
    (resync_single_packet [1, 2, 3] [0xAC, 0x03, 0x34, 0x12, 0x00, 0x02, 0x00, 0x00]
      [5, 6] (by decide) (by decide) (by decide) (by decide)).1⟩

end UT8802E
